import Mathlib

/-!
Verification development for the letter-archive crawler
(`app/parsers.py`, `app/db/crud.py`, `app/db/models.py`).

The Python source is shallowly embedded as executable Lean definitions:
pure computations become Lean functions, the database-backed store becomes
an explicit `Store` value threaded through the orchestrator loop, and code
that can raise a Python exception returns `Except PyError`.  The
`while` loop of `Parser.parse_letters` is embedded with an explicit fuel
argument counting listing pages; exhausting the fuel (`none`) models a run
that has not terminated within that many pages.
-/

/-- A Python exception that can escape the embedded code. -/
inductive PyError where
  /-- `IndexError`, e.g. `find_all("p")[0]` on an empty result list. -/
  | indexError : PyError
  /-- `ValueError`, e.g. `datetime.strptime` on text that does not match
  the format string. -/
  | valueError : PyError
deriving DecidableEq, Repr

/-- Equality of embedded results (`Except`) is decidable componentwise,
so concrete runs can be checked by evaluation. -/
instance {ε α : Type} [DecidableEq ε] [DecidableEq α] :
    DecidableEq (Except ε α) := fun a b =>
  match a, b with
  | .error e, .error e' =>
    if h : e = e' then .isTrue (by rw [h])
    else .isFalse (fun hc => by cases hc; exact h rfl)
  | .error _, .ok _ => .isFalse (fun hc => by cases hc)
  | .ok _, .error _ => .isFalse (fun hc => by cases hc)
  | .ok v, .ok v' =>
    if h : v = v' then .isTrue (by rw [h])
    else .isFalse (fun hc => by cases hc; exact h rfl)

/-- The result of `datetime.strptime(date, "%d.%m.%Y")`: a calendar date. -/
structure PyDate where
  year : Nat
  month : Nat
  day : Nat
deriving DecidableEq, Repr

/-- One row of the `letters` table (`app/db/models.py`, class `LetterData`):
`id` is the primary key, the remaining columns hold the extracted fields. -/
structure LetterData where
  id : String
  date : PyDate
  author : String
  text : String
  url : String
  sender : String
  recipient : String
  destination : String
deriving DecidableEq, Repr

/-! ## The letter store (`app/db/crud.py`)

The database table is embedded as the list of its rows in insertion order.
A `SELECT ... WHERE id = x ... first()` is a left-to-right search. -/

/-- The `letters` table: its rows in insertion order. -/
abbrev Store := List LetterData

/-- `crud.get_letter_by_id`: first stored row whose `id` column equals
`lid`, if any. -/
def get_letter_by_id (s : Store) (lid : String) : Option LetterData :=
  s.find? (fun l => l.id == lid)

/-- `crud.get_letters_count`: `SELECT count(*) FROM letters`. -/
def get_letters_count (s : Store) : Nat := s.length

/-- `crud.create_letter`: skip if a row with the same `id` exists,
otherwise insert (append) the row and commit. -/
def create_letter (s : Store) (l : LetterData) : Store :=
  match get_letter_by_id s l.id with
  | some _ => s
  | none => s ++ [l]

/-! ## `ParserBase.get_html` and its `tenacity` retry decorator

`get_html` is decorated with
`@retry(retry=retry_if_exception_type(Exception),
        wait=wait_exponential(multiplier=1, min=2, max=10),
        stop=stop_after_attempt(3), reraise=True)`.
The body of `get_html` performs one Playwright navigation inside a
`try/except Exception` that logs and returns `None`.

A single navigation attempt is embedded as an `Except Unit String`
(`.error` = the navigation raised, `.ok html` = it returned markup); a run
of attempts is a function from the 1-based attempt number to its outcome.
The tenacity combinator is embedded generically so that the interaction
between the decorator and the body's own exception handler is visible. -/

/-- `tenacity.wait_exponential(multiplier=1, min=2, max=10)`: the wait
after failed attempt number `attempt` is `1 * 2 ^ attempt` clamped into
`[2, 10]`. -/
def waitExponential_1_2_10 (attempt : Nat) : Nat :=
  max 2 (min (2 ^ attempt) 10)

/-- The `tenacity` retry loop with `retry_if_exception_type(Exception)`
and `reraise=True`: call the wrapped function; if it raises, either
reraise (when the attempt budget `remaining` is down to its last slot,
modelling `stop_after_attempt`) or wait and retry.  Returns the final
outcome, the number of calls made, and the list of backoff waits
performed, in order. -/
def tenacityRun (call : Nat → Except Unit α) :
    Nat → Nat → Except Unit α × Nat × List Nat
  | 0, _ => (.error (), 0, [])
  | 1, attempt => (call attempt, 1, [])
  | remaining + 2, attempt =>
    match call attempt with
    | .ok v => (.ok v, 1, [])
    | .error _ =>
      let rest := tenacityRun call (remaining + 1) (attempt + 1)
      (rest.1, rest.2.1 + 1, waitExponential_1_2_10 attempt :: rest.2.2)

/-- The body of `ParserBase.get_html` for one call: the navigation runs
inside `try/except Exception`, so a raised exception is caught, logged and
turned into the return value `None`.  The body itself therefore never
raises. -/
def get_html_once (nav : Except Unit String) : Except Unit (Option String) :=
  .ok (match nav with
       | .ok html => some html
       | .error _ => none)

/-- `ParserBase.get_html` as decorated: the tenacity loop
(`stop_after_attempt(3)`, so 3 attempt slots starting at attempt 1)
around the exception-swallowing body.  `nav i` is the outcome the
Playwright navigation would have on attempt `i`. -/
def get_html (nav : Nat → Except Unit String) :
    Except Unit (Option String) × Nat × List Nat :=
  tenacityRun (fun i => get_html_once (nav i)) 3 1

/-! ## `LetterParser.get_letter_data` (detail extraction)

The parts of the parsed detail page that the function reads are embedded
as a structure.  BeautifulSoup specifics, mirrored field by field:

* `find_all("p")` yields the list of paragraph tags; a tag is *falsy* in
  Python iff it has no contents (`len(tag) == 0`), hence the
  `hasContents` flag next to the tag's `.text`.
* `find("span", string="...:")` followed by `.parent.get_text(...)` is
  collapsed into the optional text of the marker's parent; it is `none`
  when the marker span (or its parent) is absent.
* `find("div", class_="text")` followed by `get_text(separator="\n")` is
  collapsed into the optional joined text of the body-text block. -/

/-- A `<p>` tag as used by the extractor: Python truthiness
(`len(tag) != 0`) and its `.text`. -/
structure PTag where
  hasContents : Bool
  text : String
deriving DecidableEq, Repr

/-- The `div.b-letter-text` container, reduced to what
`get_letter_data` reads from it. -/
structure LetterDiv where
  /-- `letter_div.find_all("p")`, in document order. -/
  paragraphs : List PTag
  /-- Text of the parent of `find("span", string="От кого:")`, obtained
  with `get_text(separator=" ", strip=True)`; `none` if the marker or its
  parent is absent. -/
  authorParentText : Option String
  /-- Text of the parent of `find("span", string="Откуда:")`, obtained
  with `get_text(strip=True)`; `none` if absent. -/
  senderParentText : Option String
  /-- Text of the parent of `find("span", string="Кому:")`, obtained with
  `get_text(separator=" ", strip=True)`; `none` if absent. -/
  recipientParentText : Option String
  /-- Text of the parent of `find("span", string="Куда:")`, obtained with
  `get_text(separator=" ", strip=True)`; `none` if absent. -/
  destinationParentText : Option String
  /-- `find("div", class_="text").get_text(separator="\n")`; `none` if the
  body-text block is absent. -/
  textBlockText : Option String
deriving DecidableEq, Repr

/-- A fetched and parsed detail page: whether the
`div.b-letter-text` container is present, and its contents. -/
structure DetailSoup where
  letterDiv : Option LetterDiv
deriving DecidableEq, Repr

/-- The whitespace set of Python's `str.strip()` (its ASCII part; the
archive's markup uses only these). -/
def isPySpace (c : Char) : Bool :=
  c == ' ' || c == '\t' || c == '\n' || c == '\r' || c == '\x0b' || c == '\x0c'

/-- Python's `str.strip()`: remove leading and trailing whitespace. -/
def pyStrip (s : String) : String :=
  ⟨((s.data.dropWhile isPySpace).reverse.dropWhile isPySpace).reverse⟩

/-- Whether `pat` is an initial segment of the second list. -/
def listStartsWith : List Char → List Char → Bool
  | [], _ => true
  | _ :: _, [] => false
  | p :: ps, c :: cs => p == c && listStartsWith ps cs

/-- Worker for `pyDeleteAll`, with fuel bounding the number of scanning
steps (one unit per consumed character; `s.length` always suffices). -/
def pyDeleteAllAux (pat : List Char) : Nat → List Char → List Char
  | 0, s => s
  | fuel + 1, s =>
    match s with
    | [] => []
    | c :: cs =>
      if listStartsWith pat s then pyDeleteAllAux pat fuel (s.drop pat.length)
      else c :: pyDeleteAllAux pat fuel cs

/-- Python's `s.replace(pat, "")` for non-empty `pat`: delete every
non-overlapping occurrence, scanning left to right. -/
def pyDeleteAll (s pat : String) : String :=
  ⟨pyDeleteAllAux pat.data s.data.length s.data⟩

/-- `re.fullmatch(r"\d{2}\.\d{2}\.\d{2,4}", s)`: two digits, a dot, two
digits, a dot, then two to four digits, spanning the whole string.
(`\d` is modelled as a decimal digit `0`–`9`; the archive's dates are
ASCII.) -/
def matches_date_pattern (s : String) : Bool :=
  match s.data with
  | c1 :: c2 :: '.' :: c3 :: c4 :: '.' :: rest =>
    c1.isDigit && c2.isDigit && c3.isDigit && c4.isDigit &&
      decide (2 ≤ rest.length) && decide (rest.length ≤ 4) &&
      rest.all Char.isDigit
  | _ => false

/-- Gregorian leap year, as `datetime` validates it. -/
def isLeapYear (y : Nat) : Bool :=
  (y % 4 == 0 && y % 100 != 0) || y % 400 == 0

/-- Number of days in a month, as `datetime` validates it. -/
def daysInMonth (month year : Nat) : Nat :=
  if month == 2 then (if isLeapYear year then 29 else 28)
  else if month == 4 || month == 6 || month == 9 || month == 11 then 30
  else 31

/-- Numeric value of two digit characters. -/
def twoDigitValue (c1 c2 : Char) : Nat :=
  10 * (c1.toNat - '0'.toNat) + (c2.toNat - '0'.toNat)

/-- `datetime.strptime(s, "%d.%m.%Y")`, modelled for the shapes reachable
from `get_letter_data` (the argument either fully matched
`\d{2}\.\d{2}\.\d{2,4}` or is the literal `"01.01.1970"`): `%Y` demands
exactly four digits, so two- and three-digit years raise `ValueError`;
a matching shape still raises unless day, month and year form a valid
calendar date (`datetime` bounds: `1 <= month <= 12`,
`1 <= day <= daysInMonth`, `year >= 1`). -/
def strptime_d_m_Y (s : String) : Except PyError PyDate :=
  match s.data with
  | [d1, d2, '.', m1, m2, '.', y1, y2, y3, y4] =>
    if d1.isDigit && d2.isDigit && m1.isDigit && m2.isDigit &&
        y1.isDigit && y2.isDigit && y3.isDigit && y4.isDigit then
      let day := twoDigitValue d1 d2
      let month := twoDigitValue m1 m2
      let year := 100 * twoDigitValue y1 y2 + twoDigitValue y3 y4
      if 1 ≤ day ∧ 1 ≤ month ∧ month ≤ 12 ∧ 1 ≤ year ∧
          day ≤ daysInMonth month year then
        .ok { year := year, month := month, day := day }
      else .error .valueError
    else .error .valueError
  | _ => .error .valueError

/-- The shared shape of the four marker fields: `none` (marker or parent
absent) falls back to `"unknown"`; otherwise the label is removed from the
parent's text (`str.replace` removes every occurrence) and the remainder
is stripped, the empty string again falling back to `"unknown"`
(`raw.replace(label, "").strip() or "unknown"`). -/
def marker_field (parentText : Option String) (label : String) : String :=
  match parentText with
  | none => "unknown"
  | some raw =>
    let v := pyStrip (pyDeleteAll raw label)
    if v = "" then "unknown" else v

/-- `LetterParser.get_letter_data`, given the parse result of the detail
page (`none` = `self.parse(url)` failed).  Returns `.ok none` where the
Python code returns `None`, `.ok (some rec)` where it returns a
`LetterData`, and `.error e` where it raises.

Faithful to the source order: the first paragraph is indexed
(`find_all("p")[0]` — an `IndexError` if there is no paragraph at all)
and all marker fields are computed before the body-text check;
`datetime.strptime` runs last, inside the `LetterData(...)` call. -/
def get_letter_data (base_url letter_id : String)
    (fetched : Option DetailSoup) : Except PyError (Option LetterData) :=
  let url := base_url ++ "#letter-" ++ letter_id
  match fetched with
  | none => .ok none
  | some soup =>
    match soup.letterDiv with
    | none => .ok none
    | some letter_div =>
      match letter_div.paragraphs with
      | [] => .error .indexError
      | date_element :: _ =>
        let raw_date :=
          if date_element.hasContents then pyStrip date_element.text
          else "01.01.1970"
        let date :=
          if matches_date_pattern raw_date then raw_date else "01.01.1970"
        let author := marker_field letter_div.authorParentText "От кого:"
        let sender := marker_field letter_div.senderParentText "Откуда:"
        let recipient := marker_field letter_div.recipientParentText "Кому:"
        let destination :=
          marker_field letter_div.destinationParentText "Куда:"
        match letter_div.textBlockText with
        | none => .ok none
        | some blockText =>
          let raw_text := pyStrip blockText
          let text := if raw_text = "" then "unknown" else raw_text
          match strptime_d_m_Y date with
          | .error e => .error e
          | .ok d =>
            .ok (some { id := letter_id, date := d, author := author,
                        text := text, url := url, sender := sender,
                        destination := destination,
                        recipient := recipient })

/-! ## `Parser.parse_letters` (the crawl orchestrator)

The listing pages of the unchanged source archive are embedded as a
function `lister : Nat → List String` from the page number to the IDs
that `LetterIdsParser.get_letter_ids` yields there (in document order),
and the detail extractor as
`ext : String → Except PyError (Option LetterData)`, the result of
`LetterParser.get_letter_data` for an ID.  The `while` loop carries an
explicit fuel counting listing-page iterations; `none` means the loop has
not finished within that many pages. -/

/-- Python's `xs[:n]` for an `int` `n`: a non-negative stop index takes a
prefix, a negative one counts from the end. -/
def pySliceTo (xs : List α) (n : Int) : List α :=
  xs.take (if n < 0 then (xs.length + n).toNat else n.toNat)

/-- The truncation step of the loop body:
`if self.letters_count + len(letter_ids) > total_parsed:
   remaining_slots = self.letters_count - total_parsed
   letter_ids = letter_ids[:remaining_slots]`
with `total_parsed` the current store count. -/
def truncated_ids (letters_count : Nat) (s : Store)
    (letter_ids : List String) : List String :=
  if (letters_count : Int) + letter_ids.length > get_letters_count s then
    pySliceTo letter_ids ((letters_count : Int) - get_letters_count s)
  else letter_ids

/-- The dedup step of the loop body: keep, in order, the truncated IDs for
which `get_letter_by_id` finds nothing in the store (already-known IDs are
logged and skipped). -/
def new_ids (letters_count : Nat) (s : Store)
    (letter_ids : List String) : List String :=
  (truncated_ids letters_count s letter_ids).filter
    (fun lid => (get_letter_by_id s lid).isNone)

/-- `asyncio.gather` over the `fetch_letter` tasks: the list of extractor
results in task order; an exception raised by a task propagates out of
the `await`. -/
def gather_results (ext : String → Except PyError (Option LetterData)) :
    List String → Except PyError (List (Option LetterData))
  | [] => .ok []
  | lid :: rest =>
    match ext lid with
    | .error e => .error e
    | .ok r =>
      match gather_results ext rest with
      | .error e => .error e
      | .ok rs => .ok (r :: rs)

/-- The persistence step of the loop body:
`for letter in results: if letter is not None: await create_letter(letter)`. -/
def persist_results (s : Store) (results : List (Option LetterData)) :
    Store :=
  results.foldl
    (fun acc r =>
      match r with
      | some l => create_letter acc l
      | none => acc)
    s

/-- One iteration of the loop body after a non-empty ID listing:
truncate, drop already-known IDs, fan out the detail fetches, and persist
every non-null result. -/
def process_page (ext : String → Except PyError (Option LetterData))
    (letters_count : Nat) (s : Store) (letter_ids : List String) :
    Except PyError Store :=
  match gather_results ext (new_ids letters_count s letter_ids) with
  | .error e => .error e
  | .ok results => .ok (persist_results s results)

/-- The `while total_parsed < self.letters_count` loop of
`Parser.parse_letters`, from a given page number and store.  Each
recursive step consumes one unit of fuel; `none` = the loop did not
terminate within the fuel.  An empty ID listing breaks the loop; after a
page is processed, `total_parsed` is re-read from the store. -/
def parse_letters_loop (lister : Nat → List String)
    (ext : String → Except PyError (Option LetterData))
    (letters_count : Nat) :
    Nat → Nat → Store → Option (Except PyError Store)
  | 0, _, s =>
    if get_letters_count s < letters_count then none else some (.ok s)
  | fuel + 1, page, s =>
    if get_letters_count s < letters_count then
      let letter_ids := lister page
      if letter_ids.isEmpty then some (.ok s)
      else
        match process_page ext letters_count s letter_ids with
        | .error e => some (.error e)
        | .ok s2 => parse_letters_loop lister ext letters_count fuel (page + 1) s2
    else some (.ok s)

/-- `Parser.parse_letters`: run the pagination loop from page 1 on the
current store. -/
def parse_letters (lister : Nat → List String)
    (ext : String → Except PyError (Option LetterData))
    (letters_count fuel : Nat) (s : Store) :
    Option (Except PyError Store) :=
  parse_letters_loop lister ext letters_count fuel 1 s

/-! ## The admission gate (`asyncio.Semaphore(5)` around `fetch_letter`)

Each `fetch_letter` task runs `async with semaphore:` around its
`get_letter_data` call.  The fan-out is embedded as a transition system:
a task step either acquires the semaphore (possible only while the
counter is positive, moving a not-yet-started task into the in-flight
set) or releases it on exit from the `async with` block (moving an
in-flight task to finished).  Any interleaving the event loop can produce
is a path of this relation. -/

/-- A snapshot of the fan-out: the semaphore counter and how many tasks
are not yet started, currently inside `get_letter_data`, or finished. -/
structure SemState where
  available : Nat
  waiting : Nat
  inflight : Nat
  finished : Nat
deriving DecidableEq, Repr

/-- One scheduler step of the fan-out. -/
inductive SemStep : SemState → SemState → Prop
  /-- A waiting task passes `async with semaphore:`; only possible while
  the counter is positive. -/
  | acquire (a w f d : Nat) :
      SemStep ⟨a + 1, w + 1, f, d⟩ ⟨a, w, f + 1, d⟩
  /-- An in-flight task returns from `get_letter_data` and leaves the
  `async with` block, releasing the semaphore. -/
  | release (a w f d : Nat) :
      SemStep ⟨a, w, f + 1, d⟩ ⟨a + 1, w, f, d + 1⟩

/-- The states an `n`-task fan-out gated by `asyncio.Semaphore(5)` can
reach: paths of `SemStep` from the initial state (counter 5, all `n`
tasks waiting, none in flight). -/
def SemReachable (n : Nat) (st : SemState) : Prop :=
  Relation.ReflTransGen SemStep ⟨5, n, 0, 0⟩ st

/-! ## Concrete scenario data -/

/-- A stored row with the given ID, as the scenarios of the spec use it. -/
def sampleRecord (lid : String) : LetterData :=
  { id := lid, date := ⟨1970, 1, 1⟩, author := "unknown", text := "t",
    url := "u", sender := "unknown", recipient := "unknown",
    destination := "unknown" }

/-- A store that already contains exactly the IDs `"a"` and `"b"`. -/
def storeAB : Store := [sampleRecord "a", sampleRecord "b"]

/-- A detail page whose content container is present and fully populated
except that it contains no `<p>` element at all. -/
def pageNoParagraphs : DetailSoup :=
  ⟨some { paragraphs := [],
          authorParentText := some "От кого: Иван Иванов",
          senderParentText := some "Откуда: Москва",
          recipientParentText := some "Кому: Анна",
          destinationParentText := some "Куда: Казань",
          textBlockText := some "Здравствуй, Анна!" }⟩

/-- A detail page whose content container is present but which has no
body-text block (and, like many sparse pages, no `<p>` element). -/
def pageNoTextBlock : DetailSoup :=
  ⟨some { paragraphs := [],
          authorParentText := some "От кого: Пётр",
          senderParentText := none,
          recipientParentText := none,
          destinationParentText := none,
          textBlockText := none }⟩

/-- A detail page whose body-text block is present but holds only
whitespace, and whose first paragraph reads `"31.11.2020"` — a string
that fully matches `\d{2}\.\d{2}\.\d{2,4}` yet is not a calendar date
(November has 30 days). -/
def pageEmptyTextBadDate : DetailSoup :=
  ⟨some { paragraphs := [⟨true, "31.11.2020"⟩],
          authorParentText := none,
          senderParentText := none,
          recipientParentText := none,
          destinationParentText := none,
          textBlockText := some "  \n " }⟩

/-! ## Claim theorems -/

/-- Claim C1, counterexample: with the store already holding exactly
`{"a","b"}`, the listing page `["a","b","c"]` and `target_count = 3`, the
set of IDs handed to the detail extractor in that page iteration is empty
— in particular it is not `["c"]` as claimed, and `"c"` is never
fetched. -/
theorem c1_dedup_example_fails :
    new_ids 3 storeAB ["a", "b", "c"] = [] ∧
    new_ids 3 storeAB ["a", "b", "c"] ≠ ["c"] := by
  decide

/-- Claim C1, amended: `parse_letters` truncates the listing to
`target_count - known = 3 - 2 = 1` entries *before* filtering out
already-known IDs, so the page iteration keeps only `["a"]`; `"a"` is
already stored and is dropped silently, hence no ID at all is passed to
the detail extractor and the iteration persists nothing, whatever the
extractor would have returned. -/
theorem c1_page_iteration_fetches_nothing
    (ext : String → Except PyError (Option LetterData)) :
    truncated_ids 3 storeAB ["a", "b", "c"] = ["a"] ∧
    new_ids 3 storeAB ["a", "b", "c"] = [] ∧
    process_page ext 3 storeAB ["a", "b", "c"] = .ok storeAB := by
  refine ⟨by decide, by decide, ?_⟩
  have h : new_ids 3 storeAB ["a", "b", "c"] = [] := by decide
  simp [process_page, h, gather_results, persist_results]

/-- Claim C2: on a URL whose rendering raises on every attempt,
`get_html` makes exactly one call — not the configured three — performs
no backoff wait at all, and returns `None` instead of surfacing the
failure: the `try/except Exception` inside the function body swallows the
exception before the `tenacity` decorator can see it, so
`stop_after_attempt(3)`, `wait_exponential` and `reraise=True` are dead
code. -/
theorem c2_get_html_single_attempt_on_total_failure :
    get_html (fun _ => .error ()) = (.ok none, 1, []) := rfl

/-- Claim C2, context: the `tenacity` loop itself, applied to a body that
*does* let the exception through, would behave exactly as the claim says
— three attempts, backoff waits of 2 then 4 time-units, final failure
reraised.  The deviation proved above is therefore in `get_html`'s body,
not in the decorator. -/
theorem tenacity_three_attempts_when_body_raises :
    tenacityRun (fun _ => (.error () : Except Unit (Option String))) 3 1 =
      (.error (), 3, [2, 4]) := rfl

/-- Claim C3: a successfully fetched detail page whose content container
is present but holds no `<p>` element makes `get_letter_data` raise
`IndexError` (`find_all("p")[0]` on an empty list) instead of
terminating normally with a record or `None` — the date field's
extraction-shape failure is not handled field-locally, even though every
other element of the page is present. -/
theorem c3_zero_paragraphs_raise_index_error :
    get_letter_data "https://archive" "42" (some pageNoParagraphs) =
      .error .indexError := rfl

/-- Claim C5: on a detail page that fetched successfully and whose
content container is present but has no body-text block,
`get_letter_data` does not reach its `return None` for the missing text
block when the container also lacks `<p>` elements: it raises
`IndexError` first, so the record is not discarded-as-null as claimed. -/
theorem c5_missing_text_block_raises_instead_of_null :
    get_letter_data "https://archive" "7" (some pageNoTextBlock) =
      .error .indexError := rfl

/-- Claim C10: on a detail page whose body-text block is present with
whitespace-only text, `get_letter_data` does not return a record with
`text = "unknown"`: with the first paragraph reading `"31.11.2020"`
(which fully matches the date pattern but is no calendar date),
`datetime.strptime` raises `ValueError` out of the call, so no record is
produced at all. -/
theorem c10_empty_text_crashes_on_invalid_matched_date :
    get_letter_data "https://archive" "9" (some pageEmptyTextBadDate) =
      .error .valueError := by decide

/-- Claim C4: on any fetched detail page with a content container (and a
first paragraph, which the code demands before reaching the fields) that
yields a record, each marker field independently equals `"unknown"` when
its marker is absent or when stripping the label leaves the empty string,
and the date equals the sentinel epoch date whenever the first
paragraph's stripped text does not fully match the
`\d{2}\.\d{2}\.\d{2,4}` pattern. -/
theorem c4_field_fallbacks (base lid : String) (p : PTag) (ps : List PTag)
    (auth snd rcp dst tb : Option String) (rec : LetterData)
    (hres : get_letter_data base lid
        (some ⟨some ⟨p :: ps, auth, snd, rcp, dst, tb⟩⟩) = .ok (some rec)) :
    (auth = none → rec.author = "unknown") ∧
    (∀ raw, auth = some raw → pyStrip (pyDeleteAll raw "От кого:") = "" →
      rec.author = "unknown") ∧
    (snd = none → rec.sender = "unknown") ∧
    (∀ raw, snd = some raw → pyStrip (pyDeleteAll raw "Откуда:") = "" →
      rec.sender = "unknown") ∧
    (rcp = none → rec.recipient = "unknown") ∧
    (∀ raw, rcp = some raw → pyStrip (pyDeleteAll raw "Кому:") = "" →
      rec.recipient = "unknown") ∧
    (dst = none → rec.destination = "unknown") ∧
    (∀ raw, dst = some raw → pyStrip (pyDeleteAll raw "Куда:") = "" →
      rec.destination = "unknown") ∧
    (matches_date_pattern (pyStrip p.text) = false →
      rec.date = ⟨1970, 1, 1⟩) := by
  simp only [get_letter_data] at hres
  split at hres
  · exact absurd hres (by simp)
  · split at hres
    · exact absurd hres (by simp)
    · rename_i blockText d heq
      injection hres with h1
      injection h1 with h2
      subst h2
      refine ⟨?_, ?_, ?_, ?_, ?_, ?_, ?_, ?_, ?_⟩
      · intro h; subst h; rfl
      · intro raw h hempty; subst h; simp [marker_field, hempty]
      · intro h; subst h; rfl
      · intro raw h hempty; subst h; simp [marker_field, hempty]
      · intro h; subst h; rfl
      · intro raw h hempty; subst h; simp [marker_field, hempty]
      · intro h; subst h; rfl
      · intro raw h hempty; subst h; simp [marker_field, hempty]
      · intro hm
        have h0 : strptime_d_m_Y "01.01.1970" =
            Except.ok (⟨1970, 1, 1⟩ : PyDate) := by decide
        cases hpc : p.hasContents with
        | true =>
          simp only [hpc, if_true, hm, Bool.false_eq_true, if_false] at heq
          rw [h0] at heq
          injection heq with h
          exact h.symm
        | false =>
          simp only [hpc, Bool.false_eq_true, if_false, ite_self] at heq
          rw [h0] at heq
          injection heq with h
          exact h.symm

/-- Claim C4, witness: a concrete page with no author marker, a sender
marker whose parent text is just the label, and a first paragraph that is
not a date; the extracted record falls back to `"unknown"` and the epoch
date. -/
theorem c4_field_fallbacks_witness :
    get_letter_data "https://archive" "5"
        (some ⟨some ⟨[⟨true, "набережная"⟩], none, some "Откуда:  ", none,
                     some "Куда: Казань", some "Привет!"⟩⟩) =
      .ok (some { id := "5", date := ⟨1970, 1, 1⟩, author := "unknown",
                  text := "Привет!", url := "https://archive#letter-5",
                  sender := "unknown", recipient := "unknown",
                  destination := "Казань" }) ∧
    matches_date_pattern (pyStrip "набережная") = false ∧
    ({ id := "5", date := ⟨1970, 1, 1⟩, author := "unknown",
       text := "Привет!", url := "https://archive#letter-5",
       sender := "unknown", recipient := "unknown",
       destination := "Казань" } : LetterData).author = "unknown" ∧
    ({ id := "5", date := ⟨1970, 1, 1⟩, author := "unknown",
       text := "Привет!", url := "https://archive#letter-5",
       sender := "unknown", recipient := "unknown",
       destination := "Казань" } : LetterData).sender = "unknown" ∧
    ({ id := "5", date := ⟨1970, 1, 1⟩, author := "unknown",
       text := "Привет!", url := "https://archive#letter-5",
       sender := "unknown", recipient := "unknown",
       destination := "Казань" } : LetterData).date = ⟨1970, 1, 1⟩ := by
  have hres : get_letter_data "https://archive" "5"
      (some ⟨some ⟨[⟨true, "набережная"⟩], none, some "Откуда:  ", none,
                   some "Куда: Казань", some "Привет!"⟩⟩) =
      .ok (some { id := "5", date := ⟨1970, 1, 1⟩, author := "unknown",
                  text := "Привет!", url := "https://archive#letter-5",
                  sender := "unknown", recipient := "unknown",
                  destination := "Казань" }) := by decide
  have h := c4_field_fallbacks "https://archive" "5" ⟨true, "набережная"⟩ []
    none (some "Откуда:  ") none (some "Куда: Казань") (some "Привет!") _ hres
  exact ⟨hres, by decide, h.1 rfl, h.2.2.2.1 "Откуда:  " rfl (by decide),
    h.2.2.2.2.2.2.2.2 (by decide)⟩

/-- Claim C6: in every page iteration of the loop (store count below the
target, a non-empty listing), the listing is truncated to the first
`target_count - known` IDs: the kept list is exactly that prefix in
document order, so its length never exceeds `target_count - known`, and
the IDs actually processed further are the not-yet-known ones among that
prefix, in order. -/
theorem c6_truncation (letters_count : Nat) (s : Store)
    (ids : List String) (hknown : get_letters_count s < letters_count)
    (_hne : ids ≠ []) :
    truncated_ids letters_count s ids =
      ids.take (letters_count - get_letters_count s) ∧
    (truncated_ids letters_count s ids).length ≤
      letters_count - get_letters_count s ∧
    (∃ rest, ids = truncated_ids letters_count s ids ++ rest) ∧
    new_ids letters_count s ids =
      (ids.take (letters_count - get_letters_count s)).filter
        (fun lid => (get_letter_by_id s lid).isNone) := by
  have hmain : truncated_ids letters_count s ids =
      ids.take (letters_count - get_letters_count s) := by
    unfold truncated_ids pySliceTo
    rw [if_pos (by omega), if_neg (by omega)]
    congr 1
    omega
  refine ⟨hmain, ?_, ?_, ?_⟩
  · rw [hmain]; exact List.length_take_le _ _
  · rw [hmain]
    exact ⟨ids.drop (letters_count - get_letters_count s),
      (List.take_append_drop _ ids).symm⟩
  · unfold new_ids
    rw [hmain]

/-- Claim C6, witness: `target_count = 2`, empty store, a listing page of
five IDs — exactly the first two, in document order, are processed. -/
theorem c6_truncation_witness :
    get_letters_count ([] : Store) < 2 ∧
    new_ids 2 [] ["i1", "i2", "i3", "i4", "i5"] = ["i1", "i2"] := by
  refine ⟨by decide, ?_⟩
  have h := (c6_truncation 2 [] ["i1", "i2", "i3", "i4", "i5"]
    (by decide) (by decide)).2.2.2
  rw [h]
  decide

/-- The store invariant: no two rows share an `id`. -/
def unique_ids (s : Store) : Prop := (s.map LetterData.id).Nodup

instance unique_ids_decidable : DecidablePred unique_ids := fun s =>
  inferInstanceAs (Decidable (s.map LetterData.id).Nodup)

/-- `create_letter` preserves the one-row-per-id invariant. -/
theorem unique_ids_create (s : Store) (l : LetterData)
    (h : unique_ids s) : unique_ids (create_letter s l) := by
  unfold create_letter
  cases hfind : get_letter_by_id s l.id with
  | some _ => exact h
  | none =>
    have hall := List.find?_eq_none.mp hfind
    have hmem : l.id ∉ s.map LetterData.id := by
      intro hm
      obtain ⟨x, hx, hxid⟩ := List.mem_map.mp hm
      exact hall x hx (by simp [hxid])
    unfold unique_ids at h ⊢
    rw [List.map_append]
    exact ((List.perm_append_singleton _ _).nodup_iff).mpr
      (List.nodup_cons.mpr ⟨hmem, h⟩)

/-- Claim C8: `create_letter` is a no-op when a row with the record's
`id` is already stored, otherwise it appends (inserts and commits) the
record; consequently any sequence of `create_letter` calls preserves the
at-most-one-row-per-id invariant. -/
theorem c8_store_unique_ids (s : Store) (l : LetterData)
    (ls : List LetterData) :
    ((get_letter_by_id s l.id).isSome → create_letter s l = s) ∧
    (get_letter_by_id s l.id = none → create_letter s l = s ++ [l]) ∧
    (unique_ids s → unique_ids (ls.foldl create_letter s)) := by
  refine ⟨?_, ?_, ?_⟩
  · intro h
    unfold create_letter
    cases hfind : get_letter_by_id s l.id with
    | some _ => rfl
    | none => rw [hfind] at h; exact absurd h (by simp)
  · intro h
    unfold create_letter
    rw [h]
  · intro h
    induction ls generalizing s with
    | nil => exact h
    | cons x rest ih => exact ih _ (unique_ids_create s x h)

/-- Claim C8, witness: re-creating `"a"` on the store `{a, b}` is a
no-op, and a concrete sequence of creations (one duplicate, one fresh)
keeps the IDs duplicate-free. -/
theorem c8_store_unique_ids_witness :
    (get_letter_by_id storeAB (sampleRecord "a").id).isSome ∧
    create_letter storeAB (sampleRecord "a") = storeAB ∧
    unique_ids storeAB ∧
    unique_ids ([sampleRecord "a", sampleRecord "c"].foldl
      create_letter storeAB) := by
  refine ⟨by decide, ?_, by decide, ?_⟩
  · exact (c8_store_unique_ids storeAB (sampleRecord "a") []).1 (by decide)
  · exact (c8_store_unique_ids storeAB (sampleRecord "a")
      [sampleRecord "a", sampleRecord "c"]).2.2 (by decide)

/-- Claim C9: in every interleaving of the fan-out tasks — every state
reachable from the initial one by acquire/release steps of the counting
admission gate `asyncio.Semaphore(5)` — the number of concurrently
executing `get_letter_data` calls never exceeds 5. -/
theorem c9_semaphore_bound (n : Nat) (st : SemState)
    (h : SemReachable n st) : st.inflight ≤ 5 := by
  have key : st.available + st.inflight = 5 := by
    induction h with
    | refl => rfl
    | tail _ step ih =>
      cases step with
      | acquire a w f d => simp only at ih ⊢; omega
      | release a w f d => simp only at ih ⊢; omega
  omega

/-- Claim C9, witness: with two tasks, the state after one acquisition
(one task in flight) is reachable and satisfies the bound. -/
theorem c9_semaphore_bound_witness :
    SemReachable 2 ⟨4, 1, 1, 0⟩ ∧ (SemState.mk 4 1 1 0).inflight ≤ 5 := by
  have h : SemReachable 2 ⟨4, 1, 1, 0⟩ :=
    Relation.ReflTransGen.single (SemStep.acquire 4 1 0 0)
  exact ⟨h, c9_semaphore_bound 2 _ h⟩

/-! ## Helper lemmas for the idempotence of `parse_letters`

The store only ever grows by appended rows, lookups survive growth, and a
page processed against a store that already covers its results is a
no-op.  Together these give the fixed-point property of a second run. -/

/-- A lookup that succeeds still succeeds after rows are appended. -/
theorem lookup_isSome_append (s u : Store) (lid : String)
    (h : (get_letter_by_id s lid).isSome) :
    (get_letter_by_id (s ++ u) lid).isSome := by
  unfold get_letter_by_id at h ⊢
  rw [List.find?_append]
  cases hs : s.find? (fun l => l.id == lid) with
  | none => rw [hs] at h; exact absurd h (by simp)
  | some v => simp [hs]

/-- `create_letter` only ever appends rows. -/
theorem create_letter_append (s : Store) (l : LetterData) :
    ∃ u, create_letter s l = s ++ u := by
  unfold create_letter
  cases get_letter_by_id s l.id with
  | some _ => exact ⟨[], by simp⟩
  | none => exact ⟨[l], rfl⟩

/-- After `create_letter s l`, a row with `l.id` is stored. -/
theorem create_letter_self (s : Store) (l : LetterData) :
    (get_letter_by_id (create_letter s l) l.id).isSome := by
  unfold create_letter
  cases hfind : get_letter_by_id s l.id with
  | some v => simp [hfind]
  | none =>
    unfold get_letter_by_id
    rw [List.find?_append]
    unfold get_letter_by_id at hfind
    rw [hfind]
    simp [List.find?]

theorem persist_results_nil (s : Store) : persist_results s [] = s := rfl

theorem persist_results_cons_none (s : Store)
    (rest : List (Option LetterData)) :
    persist_results s (none :: rest) = persist_results s rest := rfl

theorem persist_results_cons_some (s : Store) (l : LetterData)
    (rest : List (Option LetterData)) :
    persist_results s (some l :: rest) =
      persist_results (create_letter s l) rest := rfl

/-- Persisting a page's results only ever appends rows. -/
theorem persist_results_append :
    ∀ (results : List (Option LetterData)) (s : Store),
      ∃ u, persist_results s results = s ++ u
  | [], s => ⟨[], by simp [persist_results_nil]⟩
  | none :: rest, s => by
    rw [persist_results_cons_none]
    exact persist_results_append rest s
  | some l :: rest, s => by
    rw [persist_results_cons_some]
    obtain ⟨u1, hu1⟩ := create_letter_append s l
    obtain ⟨u2, hu2⟩ := persist_results_append rest (create_letter s l)
    exact ⟨u1 ++ u2, by rw [hu2, hu1, List.append_assoc]⟩

/-- A lookup that succeeds still succeeds after a page is persisted. -/
theorem persist_results_lookup (results : List (Option LetterData))
    (s : Store) (lid : String) (h : (get_letter_by_id s lid).isSome) :
    (get_letter_by_id (persist_results s results) lid).isSome := by
  obtain ⟨u, hu⟩ := persist_results_append results s
  rw [hu]
  exact lookup_isSome_append s u lid h

/-- Every record among a page's non-null results is stored (under its own
`id`) once the page is persisted. -/
theorem persist_results_covers :
    ∀ (results : List (Option LetterData)) (s : Store) (r : LetterData),
      some r ∈ results →
      (get_letter_by_id (persist_results s results) r.id).isSome
  | [], _, _, h => absurd h (List.not_mem_nil _)
  | none :: rest, s, r, h => by
    rw [persist_results_cons_none]
    rcases List.mem_cons.mp h with h1 | h2
    · exact absurd h1 (by simp)
    · exact persist_results_covers rest s r h2
  | some l :: rest, s, r, h => by
    rw [persist_results_cons_some]
    rcases List.mem_cons.mp h with h1 | h2
    · injection h1 with h1'
      subst h1'
      exact persist_results_lookup rest _ _ (create_letter_self s r)
    · exact persist_results_covers rest (create_letter s l) r h2

/-- If the gather step succeeded, every gathered ID was extracted without
an exception and its result is among the gathered results. -/
theorem gather_results_mem
    (ext : String → Except PyError (Option LetterData)) :
    ∀ (l : List String) (res : List (Option LetterData)),
      gather_results ext l = .ok res →
      ∀ lid ∈ l, ∃ b, ext lid = .ok b ∧ b ∈ res := by
  intro l
  induction l with
  | nil => intro res _ lid hlid; exact absurd hlid (List.not_mem_nil _)
  | cons x xs ih =>
    intro res h lid hlid
    simp only [gather_results] at h
    cases hx : ext x with
    | error e => rw [hx] at h; exact absurd h (by simp)
    | ok b =>
      rw [hx] at h
      cases hrest : gather_results ext xs with
      | error e => rw [hrest] at h; exact absurd h (by simp)
      | ok rs =>
        rw [hrest] at h
        injection h with h'
        subst h'
        rcases List.mem_cons.mp hlid with h1 | h2
        · subst h1; exact ⟨b, hx, List.mem_cons_self _ _⟩
        · obtain ⟨b', hb', hmem⟩ := ih rs hrest lid h2
          exact ⟨b', hb', List.mem_cons_of_mem _ hmem⟩

/-- If every ID of a batch extracts without an exception to a result
whose record (if any) is already stored in `t`, then gathering succeeds
and persisting the results leaves `t` unchanged. -/
theorem gather_results_noop
    (ext : String → Except PyError (Option LetterData)) (t : Store) :
    ∀ l : List String,
      (∀ lid ∈ l, ∃ b, ext lid = .ok b ∧
        ∀ r, b = some r → (get_letter_by_id t r.id).isSome) →
      ∃ res, gather_results ext l = .ok res ∧
        persist_results t res = t := by
  intro l
  induction l with
  | nil => intro _; exact ⟨[], rfl, rfl⟩
  | cons x xs ih =>
    intro hall
    obtain ⟨b, hb, hbr⟩ := hall x (List.mem_cons_self _ _)
    obtain ⟨res, hres, hper⟩ :=
      ih (fun lid hlid => hall lid (List.mem_cons_of_mem _ hlid))
    refine ⟨b :: res, ?_, ?_⟩
    · simp only [gather_results]
      rw [hb, hres]
    · cases b with
      | none => rw [persist_results_cons_none]; exact hper
      | some r =>
        rw [persist_results_cons_some]
        have hcr : create_letter t r = t := by
          unfold create_letter
          cases hf : get_letter_by_id t r.id with
          | some _ => rfl
          | none =>
            have hsome := hbr r rfl
            rw [hf] at hsome
            exact absurd hsome (by simp)
        rw [hcr]
        exact hper

/-- Inside the loop (store count below the target), the truncation keeps
exactly the first `target - count` IDs. -/
theorem truncated_ids_eq_take (n : Nat) (s : Store) (ids : List String)
    (h : get_letters_count s < n) :
    truncated_ids n s ids = ids.take (n - get_letters_count s) := by
  unfold truncated_ids pySliceTo
  rw [if_pos (by omega), if_neg (by omega)]
  congr 1
  omega

/-- A member of a shorter prefix is a member of a longer one. -/
theorem mem_take_mono {α : Type} (xs : List α) (m k : Nat) (hmk : m ≤ k)
    (x : α) (hx : x ∈ xs.take m) : x ∈ xs.take k := by
  have heq : xs.take m = (xs.take k).take m := by
    rw [List.take_take, Nat.min_eq_left hmk]
  rw [heq] at hx
  exact List.take_subset _ _ hx

/-- Membership in the deduplicated batch of a page. -/
theorem mem_new_ids (n : Nat) (s : Store) (ids : List String)
    (lid : String) :
    lid ∈ new_ids n s ids ↔
      lid ∈ truncated_ids n s ids ∧ get_letter_by_id s lid = none := by
  unfold new_ids
  rw [List.mem_filter]
  simp [Option.isNone_iff_eq_none]

/-- A successfully processed page only ever appends rows. -/
theorem process_page_append
    (ext : String → Except PyError (Option LetterData)) (n : Nat)
    (s s1 : Store) (ids : List String)
    (h : process_page ext n s ids = .ok s1) : ∃ u, s1 = s ++ u := by
  unfold process_page at h
  cases hg : gather_results ext (new_ids n s ids) with
  | error e => rw [hg] at h; exact absurd h (by simp)
  | ok res =>
    rw [hg] at h
    injection h with h'
    obtain ⟨u, hu⟩ := persist_results_append res s
    exact ⟨u, by rw [← h', hu]⟩

/-- If a page was once processed successfully from store `s` to `s1`, then
re-processing the same page against any later store `t` (within the loop,
i.e. both counts below the target) succeeds and changes nothing: the
batch `t` selects is a sub-batch of the one `s` selected, and each of its
successful extractions is already stored. -/
theorem process_page_noop
    (ext : String → Except PyError (Option LetterData)) (n : Nat)
    (s s1 t : Store) (ids : List String)
    (hs : process_page ext n s ids = .ok s1)
    (hcs : get_letters_count s < n) (hct : get_letters_count t < n)
    (hg1 : ∃ u, s1 = s ++ u) (hg2 : ∃ u, t = s1 ++ u) :
    process_page ext n t ids = .ok t := by
  obtain ⟨u1, hu1⟩ := hg1
  obtain ⟨u2, hu2⟩ := hg2
  have hts : t = s ++ (u1 ++ u2) := by
    rw [hu2, hu1, List.append_assoc]
  have hlen : get_letters_count s ≤ get_letters_count t := by
    rw [hts]
    unfold get_letters_count
    rw [List.length_append]
    omega
  unfold process_page at hs
  cases hgath : gather_results ext (new_ids n s ids) with
  | error e => rw [hgath] at hs; exact absurd hs (by simp)
  | ok res =>
    rw [hgath] at hs
    injection hs with hs'
    have hcover : ∀ lid ∈ new_ids n t ids, ∃ b, ext lid = .ok b ∧
        ∀ r, b = some r → (get_letter_by_id t r.id).isSome := by
      intro lid hlid
      obtain ⟨hmem_t, hnone_t⟩ := (mem_new_ids n t ids lid).mp hlid
      have hmem_s : lid ∈ truncated_ids n s ids := by
        rw [truncated_ids_eq_take n t ids hct] at hmem_t
        rw [truncated_ids_eq_take n s ids hcs]
        exact mem_take_mono ids _ _ (by omega) lid hmem_t
      have hnone_s : get_letter_by_id s lid = none := by
        cases hfs : get_letter_by_id s lid with
        | none => rfl
        | some v =>
          have hsome : (get_letter_by_id t lid).isSome := by
            rw [hts]
            exact lookup_isSome_append s (u1 ++ u2) lid (by simp [hfs])
          rw [hnone_t] at hsome
          exact absurd hsome (by simp)
      have hlid_s : lid ∈ new_ids n s ids :=
        (mem_new_ids n s ids lid).mpr ⟨hmem_s, hnone_s⟩
      obtain ⟨b, hb, hbres⟩ :=
        gather_results_mem ext (new_ids n s ids) res hgath lid hlid_s
      refine ⟨b, hb, ?_⟩
      intro r hr
      subst hr
      have h1 : (get_letter_by_id s1 r.id).isSome := by
        rw [← hs']
        exact persist_results_covers res s r hbres
      rw [hu2]
      exact lookup_isSome_append s1 u2 r.id h1
    obtain ⟨res', hres', hper'⟩ :=
      gather_results_noop ext t (new_ids n t ids) hcover
    unfold process_page
    rw [hres']
    show Except.ok (persist_results t res') = Except.ok t
    rw [hper']

/-- A completed run only ever appends rows to the store. -/
theorem parse_letters_loop_extends (lister : Nat → List String)
    (ext : String → Except PyError (Option LetterData)) (n : Nat) :
    ∀ (fuel page : Nat) (s s' : Store),
      parse_letters_loop lister ext n fuel page s = some (.ok s') →
      ∃ u, s' = s ++ u := by
  intro fuel
  induction fuel with
  | zero =>
    intro page s s' h
    simp only [parse_letters_loop] at h
    split at h
    · exact absurd h (by simp)
    · injection h with h1
      injection h1 with h2
      exact ⟨[], by rw [← h2]; simp⟩
  | succ fuel ih =>
    intro page s s' h
    simp only [parse_letters_loop] at h
    split at h
    · split at h
      · injection h with h1
        injection h1 with h2
        exact ⟨[], by rw [← h2]; simp⟩
      · split at h
        · exact absurd h (by simp)
        · rename_i s2 hpp
          obtain ⟨u1, hu1⟩ :=
            process_page_append ext n s s2 (lister page) hpp
          obtain ⟨u2, hu2⟩ := ih (page + 1) s2 s' h
          exact ⟨u1 ++ u2, by rw [hu2, hu1, List.append_assoc]⟩
    · injection h with h1
      injection h1 with h2
      exact ⟨[], by rw [← h2]; simp⟩

/-- The final store of a completed run is a fixed point: restarting the
pagination loop from it changes nothing. -/
theorem parse_letters_loop_fixed (lister : Nat → List String)
    (ext : String → Except PyError (Option LetterData)) (n : Nat) :
    ∀ (fuel page : Nat) (s s' : Store),
      parse_letters_loop lister ext n fuel page s = some (.ok s') →
      parse_letters_loop lister ext n fuel page s' = some (.ok s') := by
  intro fuel
  induction fuel with
  | zero =>
    intro page s s' h
    simp only [parse_letters_loop] at h ⊢
    split at h
    · exact absurd h (by simp)
    · rename_i hcount
      injection h with h1
      injection h1 with h2
      subst h2
      rw [if_neg hcount]
  | succ fuel ih =>
    intro page s s' h
    simp only [parse_letters_loop] at h
    split at h
    · rename_i hcount
      split at h
      · rename_i hempty
        injection h with h1
        injection h1 with h2
        subst h2
        simp only [parse_letters_loop]
        rw [if_pos hcount, if_pos hempty]
      · rename_i hempty
        split at h
        · exact absurd h (by simp)
        · rename_i s2 hpp
          have hgrow1 := process_page_append ext n s s2 (lister page) hpp
          have hgrow2 :=
            parse_letters_loop_extends lister ext n fuel (page + 1) s2 s' h
          have ih' := ih (page + 1) s2 s' h
          simp only [parse_letters_loop]
          by_cases hcount' : get_letters_count s' < n
          · rw [if_pos hcount', if_neg hempty]
            have hnoop : process_page ext n s' (lister page) = .ok s' :=
              process_page_noop ext n s s2 s' (lister page) hpp hcount
                hcount' hgrow1 hgrow2
            rw [hnoop]
            show parse_letters_loop lister ext n fuel (page + 1) s' =
              some (.ok s')
            exact ih'
          · rw [if_neg hcount']
    · rename_i hcount
      injection h with h1
      injection h1 with h2
      subst h2
      simp only [parse_letters_loop]
      rw [if_neg hcount]

/-- Claim C7: if a run of `parse_letters` against a fixed archive
(`lister`/`ext` deterministic, as for an unchanged source) completes
normally with final store `s1`, then a second run with the same target
over the same archive also completes, leaves the store at exactly `s1`,
and — since the loop only ever appends newly created rows
(`parse_letters_loop_extends`) and the final store equals the initial one
— persists zero new records. -/
theorem c7_parse_letters_idempotent (lister : Nat → List String)
    (ext : String → Except PyError (Option LetterData))
    (letters_count fuel : Nat) (s0 s1 : Store)
    (h : parse_letters lister ext letters_count fuel s0 = some (.ok s1)) :
    parse_letters lister ext letters_count fuel s1 = some (.ok s1) := by
  unfold parse_letters at h ⊢
  exact parse_letters_loop_fixed lister ext letters_count fuel 1 s0 s1 h

/-- Claim C7, witness: a one-page archive with the single ID `"x"` and
target 1; the first run from the empty store persists `"x"`, and the
second run from `[sampleRecord "x"]` completes with the same store. -/
theorem c7_parse_letters_idempotent_witness :
    parse_letters (fun p => if p = 1 then ["x"] else [])
        (fun lid => .ok (some (sampleRecord lid))) 1 3 [] =
      some (.ok [sampleRecord "x"]) ∧
    parse_letters (fun p => if p = 1 then ["x"] else [])
        (fun lid => .ok (some (sampleRecord lid))) 1 3 [sampleRecord "x"] =
      some (.ok [sampleRecord "x"]) := by
  have h1 : parse_letters (fun p => if p = 1 then ["x"] else [])
      (fun lid => .ok (some (sampleRecord lid))) 1 3 [] =
      some (.ok [sampleRecord "x"]) := by decide
  exact ⟨h1, c7_parse_letters_idempotent _ _ 1 3 [] [sampleRecord "x"] h1⟩
